import Mathlib

/-!
Verification of CrossKorean-22.10: a shallow embedding of the repository's
notebook (`note/pretrain_mlm.ipynb`) and shell script (`reset-lib.sh`),
with theorems settling the specification's claims about them.

Token ids are modelled as natural numbers; a Python `dict` of columns
(as passed by `datasets.map(..., batched=True)` to `group_texts`) is
modelled as an association list from column names to lists of token lists,
in insertion order, mirroring Python's ordered dict semantics.
-/

/-- Token ids produced by the tokenizer are modelled as natural numbers. -/
abbrev Token := Nat

/-- Input of `group_texts`: a dict mapping each column key to a list of
token lists (one list per example of the batch). -/
abbrev Examples := List (String × List (List Token))

/-- Python slice `t[i : i + n]`: drop `i` elements, then take at most `n`.
Python slicing never raises on out-of-range bounds, it just shortens. -/
def pySlice (t : List Token) (i n : Nat) : List Token :=
  (t.drop i).take n

/-- Python `range(0, stop, step)` for a positive `step`: the multiples of
`step` below `stop`, i.e. `⌈stop / step⌉` indices `0, step, 2·step, …`. -/
def pyRangeStep (stop step : Nat) : List Nat :=
  (List.range ((stop + step - 1) / step)).map (fun j => j * step)

/-- Embedding of the notebook's `group_texts` (cell 24):

```python
def group_texts(examples):
    concatenated_examples = {k: sum(examples[k], []) for k in examples.keys()}
    total_length = len(concatenated_examples[list(examples.keys())[0]])
    total_length = (total_length // max_seq_length) * max_seq_length
    result = {
        k: [t[i: i + max_seq_length] for i in range(0, total_length, max_seq_length)]
        for k, t in concatenated_examples.items()
    }
    return result
```

`sum(examples[k], [])` is list concatenation (`List.flatten`).
`list(examples.keys())[0]` raises `IndexError` on an empty dict, and
`total_length // max_seq_length` raises `ZeroDivisionError` when
`max_seq_length = 0`; both failure modes are modelled as `none`.
The notebook always calls it with the global `max_seq_length = 128`. -/
def group_texts (max_seq_length : Nat) (examples : Examples) : Option Examples :=
  match examples with
  | [] => none
  | (_, v0) :: _ =>
    if max_seq_length = 0 then none
    else
      let total_length := v0.flatten.length / max_seq_length * max_seq_length
      some (examples.map (fun kv =>
        (kv.1, (pyRangeStep total_length max_seq_length).map
          (fun i => pySlice kv.2.flatten i max_seq_length))))

/-- Structural description of the chunking that `group_texts` performs on one
concatenated column: `q` successive windows of width `s`. -/
def chunkList (s : Nat) : Nat → List Token → List (List Token)
  | 0, _ => []
  | q + 1, t => t.take s :: chunkList s (q : Nat) (t.drop s)

theorem pyRangeStep_mul (q s : Nat) (hs : 0 < s) :
    pyRangeStep (q * s) s = (List.range q).map (fun j => j * s) := by
  unfold pyRangeStep
  congr 1
  congr 1
  obtain ⟨s, rfl⟩ : ∃ t, s = t + 1 := ⟨s - 1, by omega⟩
  have h1 : q * (s + 1) + (s + 1) - 1 = s + q * (s + 1) := by ring_nf; omega
  rw [h1, Nat.add_mul_div_right _ _ (by omega : 0 < s + 1),
    Nat.div_eq_of_lt (by omega : s < s + 1)]
  omega

theorem sliceMap_eq_chunkList (s : Nat) :
    ∀ (q : Nat) (t : List Token),
      (List.range q).map (fun j => pySlice t (j * s) s) = chunkList s q t := by
  intro q
  induction q with
  | zero => intro t; rfl
  | succ q ih =>
    intro t
    rw [List.range_succ_eq_map, List.map_cons, List.map_map, chunkList]
    congr 1
    · show (t.drop (0 * s)).take s = t.take s
      rw [Nat.zero_mul, List.drop_zero]
    · rw [← ih (t.drop s)]
      apply List.map_congr_left
      intro j _
      show pySlice t (Nat.succ j * s) s = pySlice (t.drop s) (j * s) s
      unfold pySlice
      rw [List.drop_drop]
      congr 2
      rw [Nat.succ_eq_add_one]
      ring

theorem length_chunkList (s q : Nat) (t : List Token) :
    (chunkList s q t).length = q := by
  induction q generalizing t with
  | zero => rfl
  | succ q ih => rw [chunkList, List.length_cons, ih]

theorem flatten_chunkList (s q : Nat) (t : List Token) :
    (chunkList s q t).flatten = t.take (q * s) := by
  induction q generalizing t with
  | zero => simp [chunkList]
  | succ q ih =>
    rw [chunkList, List.flatten_cons, ih]
    have h : (q + 1) * s = s + q * s := by ring
    rw [h, List.take_add]

theorem mem_chunkList_length (s q : Nat) (t : List Token) (b : List Token)
    (hb : b ∈ chunkList s q t) (hq : q * s ≤ t.length) : b.length = s := by
  induction q generalizing t with
  | zero => simp [chunkList] at hb
  | succ q ih =>
    rw [chunkList] at hb
    rw [add_mul, one_mul] at hq
    rcases List.mem_cons.mp hb with h | h
    · subst h
      rw [List.length_take]
      omega
    · apply ih _ h
      rw [List.length_drop]
      omega

theorem group_texts_eq_chunk (msl : Nat) (hmsl : 0 < msl)
    (k0 : String) (v0 : List (List Token)) (rest : Examples) :
    group_texts msl ((k0, v0) :: rest) =
      some (((k0, v0) :: rest).map (fun kv =>
        (kv.1, chunkList msl (v0.flatten.length / msl) kv.2.flatten))) := by
  simp only [group_texts]
  rw [if_neg (by omega)]
  congr 1
  apply List.map_congr_left
  intro kv _
  congr 1
  rw [pyRangeStep_mul _ _ hmsl, List.map_map]
  exact sliceMap_eq_chunkList msl _ _

/-- C2: calling `group_texts` with `max_seq_length = 128` on a dict whose
keys' token lists all concatenate to the same total length `L` returns a
result mapping each key to exactly `L / 128` blocks (integer division,
remainder discarded), every returned block having length exactly `128`. -/
theorem group_texts_fixed_blocks (examples : Examples) (L : Nat)
    (hne : examples ≠ [])
    (hL : ∀ kv ∈ examples, kv.2.flatten.length = L) :
    ∃ res, group_texts 128 examples = some res ∧
      res.map Prod.fst = examples.map Prod.fst ∧
      ∀ kv ∈ res, kv.2.length = L / 128 ∧ ∀ b ∈ kv.2, b.length = 128 := by
  cases examples with
  | nil => exact absurd rfl hne
  | cons e rest =>
    obtain ⟨k0, v0⟩ := e
    have h0 : v0.flatten.length = L := hL (k0, v0) (List.mem_cons_self _ _)
    rw [group_texts_eq_chunk 128 (by omega) k0 v0 rest, h0]
    refine ⟨_, rfl, ?_, ?_⟩
    · rw [List.map_map]
      rfl
    · intro kv hkv
      rw [List.mem_map] at hkv
      obtain ⟨⟨k, v⟩, hmem, rfl⟩ := hkv
      refine ⟨length_chunkList _ _ _, fun b hb => ?_⟩
      apply mem_chunkList_length _ _ _ _ hb
      rw [show v.flatten.length = L from hL (k, v) hmem]
      exact Nat.div_mul_le_self L 128

/-- Witness for C2 at a concrete one-column batch of total length 128. -/
theorem group_texts_fixed_blocks_witness :
    ∃ res, group_texts 128 [("input_ids", [List.replicate 128 0])] = some res ∧
      res.map Prod.fst = [("input_ids", [List.replicate 128 0])].map Prod.fst ∧
      ∀ kv ∈ res, kv.2.length = 128 / 128 ∧ ∀ b ∈ kv.2, b.length = 128 :=
  group_texts_fixed_blocks _ 128 (by simp) (by simp)

/-- C3: for every key of a `group_texts` input whose columns all concatenate
to total length `L`, the concatenation of the blocks returned for that key
is exactly the first `L / msl * msl` tokens, in their original order, of the
concatenation of that key's input lists; exactly the trailing `L % msl`
tokens are discarded and no token is altered, duplicated or reordered. -/
theorem group_texts_concat_take (examples : Examples) (L msl : Nat)
    (hmsl : 0 < msl) (hne : examples ≠ [])
    (hL : ∀ kv ∈ examples, kv.2.flatten.length = L) :
    ∃ res, group_texts msl examples = some res ∧
      ∀ k v, (k, v) ∈ examples →
        ∃ blocks, (k, blocks) ∈ res ∧
          blocks.flatten = v.flatten.take (L / msl * msl) ∧
          (v.flatten.drop (L / msl * msl)).length = L % msl := by
  cases examples with
  | nil => exact absurd rfl hne
  | cons e rest =>
    obtain ⟨k0, v0⟩ := e
    have h0 : v0.flatten.length = L := hL (k0, v0) (List.mem_cons_self _ _)
    rw [group_texts_eq_chunk msl hmsl k0 v0 rest, h0]
    refine ⟨_, rfl, ?_⟩
    intro k v hmem
    refine ⟨chunkList msl (L / msl) v.flatten, ?_, ?_, ?_⟩
    · rw [List.mem_map]
      exact ⟨(k, v), hmem, rfl⟩
    · exact flatten_chunkList _ _ _
    · rw [List.length_drop, show v.flatten.length = L from hL (k, v) hmem]
      have hdm := Nat.div_add_mod L msl
      have hco : L / msl * msl = msl * (L / msl) := Nat.mul_comm _ _
      omega

/-- Witness for C3 at block size 2 on a length-3 column: the first two
tokens survive and one trailing token is discarded. -/
theorem group_texts_concat_take_witness :
    ∃ res, group_texts 2 [("input_ids", [[7, 8, 9]])] = some res ∧
      ∀ k v, (k, v) ∈ [(("input_ids" : String), [[7, 8, 9]])] →
        ∃ blocks, (k, blocks) ∈ res ∧
          blocks.flatten = v.flatten.take (3 / 2 * 2) ∧
          (v.flatten.drop (3 / 2 * 2)).length = 3 % 2 :=
  group_texts_concat_take _ 3 2 (by omega) (by decide) (by decide)

/-- C4 counterexample: on the empty dict `group_texts` does not return
normally — `list(examples.keys())[0]` raises `IndexError`, modelled as
`none`. -/
theorem group_texts_empty_dict_fails : group_texts 128 [] = none := rfl

/-- C4 amended: on every non-empty input dict — including dicts whose lists
are empty — `group_texts` with the notebook's block size 128 returns
normally with a result dict. -/
theorem group_texts_total_on_nonempty (examples : Examples)
    (hne : examples ≠ []) : (group_texts 128 examples).isSome = true := by
  cases examples with
  | nil => exact absurd rfl hne
  | cons e rest =>
    obtain ⟨k0, v0⟩ := e
    rw [group_texts_eq_chunk 128 (by omega) k0 v0 rest]
    rfl

/-- Witness for the amended C4: a dict whose only list is empty. -/
theorem group_texts_total_on_nonempty_witness :
    (group_texts 128 [("input_ids", ([] : List (List Token)))]).isSome = true :=
  group_texts_total_on_nonempty _ (by decide)

/-- C5: `group_texts` is stateless and deterministic — for every fixed block
size, equal inputs yield equal results, and the embedded function depends on
nothing but the input dict and `max_seq_length` (both are its only
parameters). -/
theorem group_texts_deterministic (msl : Nat) (e₁ e₂ : Examples)
    (h : e₁ = e₂) : group_texts msl e₁ = group_texts msl e₂ := by rw [h]

/-- Witness for C5 at a concrete batch. -/
theorem group_texts_deterministic_witness :
    group_texts 128 [("input_ids", [[1, 2]])] =
      group_texts 128 [("input_ids", [[1, 2]])] :=
  group_texts_deterministic 128 _ _ rfl

/-- C10: when the concatenated token lists have total length `L < 128`,
`group_texts` with the notebook's block size 128 maps every key to an empty
list of blocks, silently discarding all input tokens. -/
theorem group_texts_short_input (examples : Examples) (L : Nat)
    (hne : examples ≠ []) (hL : ∀ kv ∈ examples, kv.2.flatten.length = L)
    (hshort : L < 128) :
    group_texts 128 examples =
      some (examples.map (fun kv => (kv.1, ([] : List (List Token))))) := by
  cases examples with
  | nil => exact absurd rfl hne
  | cons e rest =>
    obtain ⟨k0, v0⟩ := e
    have h0 : v0.flatten.length = L := hL (k0, v0) (List.mem_cons_self _ _)
    rw [group_texts_eq_chunk 128 (by omega) k0 v0 rest, h0,
      Nat.div_eq_of_lt hshort]
    rfl

/-- Witness for C10: a three-token batch is wholly discarded. -/
theorem group_texts_short_input_witness :
    group_texts 128 [("input_ids", [[1, 2, 3]])] =
      some [("input_ids", ([] : List (List Token)))] :=
  group_texts_short_input _ 3 (by decide) (by decide) (by omega)

/-- Notebook cell 2: `language = "ko"`. -/
def language : String := "ko"

/-- Notebook cell 3: `model_config = "roberta-base"`. -/
def model_config : String := "roberta-base"

/-- Notebook cell 4: `model_dir = model_config + f"-pretrained-{language}"`.
The f-string builds `"-pretrained-" ++ language` first; the `+` then
prepends `model_config`. -/
def mkModelDir (mc lang : String) : String := mc ++ ("-pretrained-" ++ lang)

/-- Value of `model_dir` with the notebook's `model_config` and `language`. -/
def model_dir : String := mkModelDir model_config language

/-- C7: the directory path built by the notebook is the model configuration
name concatenated with `"-pretrained-"` and the language code; with
`model_config = "roberta-base"` and `language = "ko"` it equals
`"roberta-base-pretrained-ko"`. -/
theorem model_dir_concat :
    (∀ mc lang : String, mkModelDir mc lang = mc ++ "-pretrained-" ++ lang) ∧
    model_dir = "roberta-base-pretrained-ko" := by
  refine ⟨fun mc lang => ?_, rfl⟩
  rw [mkModelDir, String.append_assoc]

/-- Code cells of `note/pretrain_mlm.ipynb`, one constructor per operation.
`trainTokenizer` stands for a `tokenizer.train_from_iterator(...)` call and
`trainLoop` for a masked-LM training loop; both constructors exist to state
their absence from the committed notebook. -/
inductive Cell where
  | importJaxDevices          -- cell 1: jax.local_devices()
  | setLanguage               -- cell 2: language = "ko"
  | setModelConfig            -- cell 3: model_config = "roberta-base"
  | setModelDir               -- cell 4: model_dir = model_config + ...
  | mkdirModelDir             -- cell 5: Path(model_dir).mkdir(...)
  | loadAutoConfig            -- cell 6: AutoConfig.from_pretrained(...)
  | saveAutoConfig            -- cell 7: config.save_pretrained(...)
  | importTokenizerLib        -- cell 8: imports from datasets/tokenizers
  | loadDatasetFull           -- cell 9: load_dataset("oscar", ...)
  | showRawDataset            -- cell 10: raw_dataset
  | showColumns               -- cell 11: raw_dataset.column_names, len(...)
  | newByteLevelBPETokenizer  -- cell 12: tokenizer = ByteLevelBPETokenizer()
  | defBatchIterator          -- cell 13: def batch_iterator(...)
  | trainTokenizer            -- ABSENT: tokenizer.train_from_iterator(...)
  | saveTokenizer             -- cell 14: tokenizer.save(f"{model_dir}/tokenizer.json")
  | setMaxSeqLength           -- cell 15: max_seq_length = 128
  | loadTrainSplit            -- cell 16: load_dataset(..., split="train[5%:]")
  | loadValidSplit            -- cell 17: load_dataset(..., split="train[:5%]")
  | showSplitSizes            -- cell 18: column names and split sizes
  | selectSubsets             -- cell 19: select(range(10000)) / select(range(1000))
  | loadAutoTokenizer         -- cell 20: AutoTokenizer.from_pretrained(model_dir)
  | showTokenizer             -- cell 21: tokenizer (prints vocab_size=0)
  | defTokenizeFunction       -- cell 22: def tokenize_function(...)
  | mapTokenizeFunction       -- cell 23: raw_dataset.map(tokenize_function, ...)
  | defGroupTexts             -- cell 24: def group_texts(...)
  | mapGroupTexts             -- cell 25: tokenized_datasets.map(group_texts, ...)
  | trainLoop                 -- ABSENT: a masked-LM training loop
  deriving DecidableEq

/-- Faithful transcription of the notebook's code-cell sequence (execution
counts 1–25, in file order). No cell calls `train_from_iterator` between
instantiating the tokenizer (cell 12) and saving it (cell 14), and the
notebook ends after the `group_texts` mapping (cell 25). -/
def notebookCells : List Cell :=
  [.importJaxDevices, .setLanguage, .setModelConfig, .setModelDir,
   .mkdirModelDir, .loadAutoConfig, .saveAutoConfig, .importTokenizerLib,
   .loadDatasetFull, .showRawDataset, .showColumns,
   .newByteLevelBPETokenizer, .defBatchIterator, .saveTokenizer,
   .setMaxSeqLength, .loadTrainSplit, .loadValidSplit, .showSplitSizes,
   .selectSubsets, .loadAutoTokenizer, .showTokenizer,
   .defTokenizeFunction, .mapTokenizeFunction, .defGroupTexts,
   .mapGroupTexts]

/-- Tokenizer-relevant state threaded through the notebook cells: whether
the in-memory `tokenizers` object has had its vocabulary trained on the
corpus, and the trained-status it had at the moment `tokenizer.save` wrote
`{model_dir}/tokenizer.json` (`none` until a save happens). -/
structure TokenizerTrace where
  vocabTrained : Bool
  savedVocabTrained : Option Bool
  deriving DecidableEq

/-- Effect of one notebook cell on the tokenizer state: instantiation
yields a fresh untrained tokenizer, training marks it trained, saving
records the current trained-status in the written file. -/
def stepCell (st : TokenizerTrace) : Cell → TokenizerTrace
  | .newByteLevelBPETokenizer => { st with vocabTrained := false }
  | .trainTokenizer => { st with vocabTrained := true }
  | .saveTokenizer => { st with savedVocabTrained := some st.vocabTrained }
  | _ => st

/-- Execution of a cell sequence from the initial state. -/
def runCells (cells : List Cell) : TokenizerTrace :=
  cells.foldl stepCell ⟨false, none⟩

/-- C1 (refuted by the code): the committed notebook saves an UNTRAINED
tokenizer. No `train_from_iterator` cell exists, so the tokenizer written
to `{model_dir}/tokenizer.json` still carries its fresh, empty vocabulary —
the notebook's own recorded output of cell 21 shows `vocab_size=0` for the
reloaded tokenizer, contradicting the markdown cells that announce training
before saving. -/
theorem saved_tokenizer_untrained :
    (runCells notebookCells).savedVocabTrained = some false ∧
    Cell.trainTokenizer ∉ notebookCells := by decide

/-- C6: the pipeline's cells occur in the order load → tokenize → chunk;
the `group_texts` mapping is the notebook's final code cell and no training
loop is defined or executed anywhere in the notebook. -/
theorem pipeline_order :
    notebookCells.indexOf Cell.loadDatasetFull <
        notebookCells.indexOf Cell.mapTokenizeFunction ∧
    notebookCells.indexOf Cell.loadTrainSplit <
        notebookCells.indexOf Cell.mapTokenizeFunction ∧
    notebookCells.indexOf Cell.loadValidSplit <
        notebookCells.indexOf Cell.mapTokenizeFunction ∧
    notebookCells.indexOf Cell.mapTokenizeFunction <
        notebookCells.indexOf Cell.mapGroupTexts ∧
    notebookCells.getLast? = some Cell.mapGroupTexts ∧
    Cell.trainLoop ∉ notebookCells := by decide

/-- One line under `sed "s/PAT/REPL/"` (no `g` flag): the first occurrence
of `pat` in the line is replaced by `repl`; a line without an occurrence is
returned unchanged. The pattern in `reset-lib.sh` contains no regex
metacharacter, so plain substring matching is the exact semantics. -/
def subFirst (pat repl : List Char) : List Char → List Char
  | [] => []
  | c :: cs =>
    if pat.isPrefixOf (c :: cs) then repl ++ (c :: cs).drop pat.length
    else c :: subFirst pat repl cs

/-- Boolean test: does `pat` occur as a contiguous substring of `l`? -/
def occursIn (pat : List Char) : List Char → Bool
  | [] => pat.isPrefixOf ([] : List Char)
  | c :: cs => pat.isPrefixOf (c :: cs) || occursIn pat cs

/-- Pattern of the `sed -i` call in `reset-lib.sh`:
`sed -i "s/from collections import/from collections.abc import/" attrdict/attrdict/*.py`. -/
def sedPat : List Char := "from collections import".data

/-- Replacement text of the same `sed -i` call. -/
def sedRepl : List Char := "from collections.abc import".data

/-- Effect of the sed substitution on one line of an attrdict module file. -/
def patchLine (line : List Char) : List Char := subFirst sedPat sedRepl line

/-- Effect of `sed -i` on a whole attrdict module file, line by line. -/
def patchFile (lines : List (List Char)) : List (List Char) :=
  lines.map patchLine

theorem subFirst_not_occurs (pat repl : List Char) (l : List Char)
    (h : occursIn pat l = false) : subFirst pat repl l = l := by
  induction l with
  | nil => rfl
  | cons c cs ih =>
    rw [occursIn, Bool.or_eq_false_iff] at h
    rw [subFirst, if_neg (by rw [h.1]; exact Bool.false_ne_true), ih h.2]

theorem subFirst_first_occurrence (pat repl : List Char) (hpat : pat ≠ []) :
    ∀ (a b : List Char),
      (∀ i < a.length, pat.isPrefixOf ((a ++ pat ++ b).drop i) = false) →
      subFirst pat repl (a ++ pat ++ b) = a ++ repl ++ b := by
  obtain ⟨p, ps, rfl⟩ : ∃ p ps, pat = p :: ps := by
    cases pat with
    | nil => exact absurd rfl hpat
    | cons p ps => exact ⟨p, ps, rfl⟩
  intro a
  induction a with
  | nil =>
    intro b _
    simp only [List.nil_append, List.cons_append]
    rw [subFirst, if_pos]
    · rw [List.length_cons, List.drop_succ_cons, List.drop_left]
    · rw [List.isPrefixOf_iff_prefix, ← List.cons_append]
      exact List.prefix_append _ _
  | cons c a ih =>
    intro b hfirst
    have h0 := hfirst 0 (by simp)
    rw [List.drop_zero] at h0
    simp only [List.cons_append] at h0 ⊢
    rw [subFirst, if_neg (by rw [h0]; exact Bool.false_ne_true)]
    rw [ih b (fun i hi => ?_)]
    have hi1 := hfirst (i + 1) (by simpa using Nat.succ_lt_succ hi)
    simpa only [List.cons_append, List.drop_succ_cons] using hi1

/-- C8: the vendored-source patch of `reset-lib.sh`, applied line by line
to an attrdict module file, preserves the line count, leaves every line
not containing `from collections import` unchanged, and on a line whose
first occurrence of that substring follows the prefix `a`, rewrites exactly
that occurrence to `from collections.abc import`, leaving the surrounding
characters `a` and `b` unchanged. -/
theorem sed_patch_effect (file : List (List Char)) :
    (patchFile file).length = file.length ∧
    (∀ (n : Nat) (line : List Char), file[n]? = some line →
      occursIn sedPat line = false →
      (patchFile file)[n]? = some line) ∧
    (∀ (n : Nat) (a b : List Char), file[n]? = some (a ++ sedPat ++ b) →
      (∀ i < a.length, sedPat.isPrefixOf ((a ++ sedPat ++ b).drop i) = false) →
      (patchFile file)[n]? = some (a ++ sedRepl ++ b)) := by
  refine ⟨List.length_map _ _, ?_, ?_⟩
  · intro n line hn hline
    rw [patchFile, List.getElem?_map, hn, Option.map_some',
      patchLine, subFirst_not_occurs _ _ _ hline]
  · intro n a b hn hfirst
    rw [patchFile, List.getElem?_map, hn, Option.map_some', patchLine,
      subFirst_first_occurrence _ _ (by decide) a b hfirst]

/-- Witness for C8 on a two-line file: the import line is rewritten with
its suffix intact and the unrelated line is untouched. -/
theorem sed_patch_effect_witness :
    (patchFile ["from collections import Mapping".data,
      "import re".data])[0]? =
        some ("from collections.abc import Mapping".data) ∧
    (patchFile ["from collections import Mapping".data,
      "import re".data])[1]? = some ("import re".data) := by
  constructor
  · have h := (sed_patch_effect ["from collections import Mapping".data,
      "import re".data]).2.2 0 ([] : List Char) (" Mapping".data)
      (by decide) (by decide)
    exact h.trans (by decide)
  · exact (sed_patch_effect ["from collections import Mapping".data,
      "import re".data]).2.1 1 ("import re".data) (by decide) (by decide)

/-- Modelled from the spec: the percent-slicing of the external `datasets`
library invoked by notebook cells 16 and 17. Both
`load_dataset(..., split="train[5%:]")` and
`load_dataset(..., split="train[:5%]")` compute the same boundary index
(5% of the cached full train split, rounded to the nearest record) and take
the records from, respectively before, that boundary. -/
def pctBoundary (pct n : Nat) : Nat := (2 * pct * n + 100) / 200

/-- Records loaded by cell 16: `split="train[5%:]"`, the final 95%. -/
def trainSplitRecs (ds : List Nat) : List Nat :=
  ds.drop (pctBoundary 5 ds.length)

/-- Records loaded by cell 17: `split="train[:5%]"`, the first 5%. -/
def validSplitRecs (ds : List Nat) : List Nat :=
  ds.take (pctBoundary 5 ds.length)

/-- C9: the train/validation re-split partitions the cached dataset — the
validation records followed by the train records are exactly the original
records in order (so the two loads are disjoint and jointly exhaustive),
the split sizes sum to the original size, and at the notebook's dataset
size 3675420 the sizes are 3491649 and 183771, matching cell 18's output. -/
theorem resplit_partitions (ds : List Nat) :
    validSplitRecs ds ++ trainSplitRecs ds = ds ∧
    (trainSplitRecs ds).length + (validSplitRecs ds).length = ds.length ∧
    (trainSplitRecs (List.range 3675420)).length = 3491649 ∧
    (validSplitRecs (List.range 3675420)).length = 183771 := by
  refine ⟨List.take_append_drop _ _, ?_, ?_, ?_⟩
  · rw [trainSplitRecs, validSplitRecs, List.length_drop, List.length_take]
    have hb : pctBoundary 5 ds.length ≤ ds.length := by
      unfold pctBoundary
      omega
    omega
  · rw [trainSplitRecs, List.length_drop, List.length_range]
    norm_num [pctBoundary]
  · rw [validSplitRecs, List.length_take, List.length_range]
    norm_num [pctBoundary]
